import Mathlib

/-!
Verification of the expired-listings worker (`src/index.js`).

The development shallowly embeds the worker's pure core:

* `parseCSV` / `parseCSVLine` — the HAR MLS CSV normalizer;
* `calculateUrgencyScore` — the 10-point urgency scoring rubric;
* `skipTraceWithTracerfy` — the Tracerfy skip-trace workflow (submit,
  poll, download, match-back), with HTTP effects modelled by an
  explicit environment of oracle responses.

JavaScript numbers that matter here are integers produced by
`parseInt`, modelled as `Option ℤ` (`none` = NaN); the score arithmetic
is on small dyadic rationals, which binary floating point represents
exactly, so `ℚ` is a faithful model.  `new Date(...)` parsing of
arbitrary strings is host-library behaviour and is passed in as an
oracle `parseDate : String → Option ℤ` (milliseconds since epoch,
`none` = Invalid Date).
-/

namespace ExpiredListings

/-- The normalized listing record built by `parseCSV` (src/index.js:169-188),
with the later-attached fields `urgencyScore` (scoring step),
`csvFilename`, and the owner fields attached by the skip-trace
match-back (`none` = field absent on the JS object). -/
structure Listing where
  address : String := ""
  city : String := ""
  zip : String := ""
  state : String := ""
  price : String := ""
  originalListDate : String := ""
  expiredDate : String := ""
  daysOnMarket : String := ""
  cumulativeDaysOnMarket : String := ""
  bedrooms : String := ""
  bathrooms : String := ""
  sqft : String := ""
  yearBuilt : String := ""
  listingAgent : String := ""
  listingOffice : String := ""
  mlsNumber : String := ""
  propertyType : String := ""
  status : String := ""
  urgencyScore : ℚ := 0
  csvFilename : String := ""
  ownerName : Option String := none
  ownerPhone : Option String := none
  ownerEmail : Option String := none
  ownerMailingAddress : Option String := none
  deriving Repr, DecidableEq, Inhabited

/-! ## Character-level string helpers (JS `trim`, `replace`, `toLowerCase`) -/

/-- Leading-whitespace removal on character lists. -/
def trimLeft (cs : List Char) : List Char := cs.dropWhile Char.isWhitespace

/-- Model of JS `String.prototype.trim()`: strip leading and trailing
whitespace. -/
def trimChars (cs : List Char) : List Char :=
  ((trimLeft cs).reverse.dropWhile Char.isWhitespace).reverse

/-- Model of `.replace(/^"|"$/g, "")` (src/index.js:149,216,438): remove one
leading and one trailing double quote if present. -/
def stripQuoteChars (cs : List Char) : List Char :=
  let s1 := if cs.head? = some '"' then cs.tail else cs
  if s1.getLast? = some '"' then s1.dropLast else s1

/-- Model of `.toLowerCase()` restricted to the ASCII range used by the
address data. -/
def lowerChars (cs : List Char) : List Char := cs.map Char.toLower

/-- Model of `.replace(/\s+/g, "_")` (src/index.js:438): each maximal
whitespace run becomes a single underscore. -/
def wsToUnderscoreAux : List Char → Bool → List Char
  | [], _ => []
  | c :: t, lastWs =>
    if c.isWhitespace then
      if lastWs then wsToUnderscoreAux t true else '_' :: wsToUnderscoreAux t true
    else c :: wsToUnderscoreAux t false

/-- Model of `.replace(/\s+/g, "_")` (src/index.js:438): each maximal
whitespace run becomes a single underscore. -/
def wsToUnderscore (cs : List Char) : List Char := wsToUnderscoreAux cs false

/-- `needle` occurs contiguously inside `hay` — JS `String.prototype.includes`. -/
def containsSeq (needle : List Char) : List Char → Bool
  | [] => needle.isEmpty
  | c :: t => needle.isPrefixOf (c :: t) || containsSeq needle t

/-- JS `s.split(" ")[0]` on an already-trimmed string: the prefix up to the
first space (empty input gives the empty token). -/
def firstToken (cs : List Char) : List Char := cs.takeWhile (fun c => c ≠ ' ')

/-! ## JS `parseInt` and truthy-or defaults -/

/-- Maximal decimal-digit prefix, `none` when there is no digit at all
(JS NaN). -/
def parseDecDigits : List Char → Option ℕ → Option ℕ
  | [], acc => acc
  | c :: rest, acc =>
    if c.isDigit then
      parseDecDigits rest (some ((acc.getD 0) * 10 + (c.toNat - 48)))
    else acc

/-- Maximal hexadecimal-digit prefix, `none` when there is no digit. -/
def parseHexDigits : List Char → Option ℕ → Option ℕ
  | [], acc => acc
  | c :: rest, acc =>
    if c.isDigit then
      parseHexDigits rest (some ((acc.getD 0) * 16 + (c.toNat - 48)))
    else if 'a' ≤ c ∧ c ≤ 'f' then
      parseHexDigits rest (some ((acc.getD 0) * 16 + (c.toNat - 87)))
    else if 'A' ≤ c ∧ c ≤ 'F' then
      parseHexDigits rest (some ((acc.getD 0) * 16 + (c.toNat - 55)))
    else acc

/-- Unsigned part of JS `parseInt` with no radix argument: a `0x`/`0X`
prefix selects base 16, otherwise base 10; the longest valid digit
prefix is taken; no digit at all gives NaN (`none`). -/
def parseIntUnsigned : List Char → Option ℕ
  | '0' :: 'x' :: rest => parseHexDigits rest none
  | '0' :: 'X' :: rest => parseHexDigits rest none
  | cs => parseDecDigits cs none

/-- Model of JS `parseInt(s)`: skip leading whitespace, optional sign,
then the longest digit prefix; `none` is NaN. -/
def parseIntJS (s : String) : Option ℤ :=
  match trimLeft s.data with
  | '-' :: rest => (parseIntUnsigned rest).map (fun n => -(n : ℤ))
  | '+' :: rest => (parseIntUnsigned rest).map (fun n => (n : ℤ))
  | cs => (parseIntUnsigned cs).map (fun n => (n : ℤ))

/-- JS `x || d` after `parseInt`: NaN and `0` are falsy and fall back to
the default. -/
def jsOrInt (o : Option ℤ) (d : ℤ) : ℤ :=
  match o with
  | none => d
  | some n => if n = 0 then d else n

/-- JS `a || b` on strings: the empty string is falsy. -/
def jsOrStr (a b : String) : String := if a = "" then b else a

/-- Model of `.replace(/[,$]/g, "")` (src/index.js:228). -/
def stripMoney (s : String) : String :=
  String.mk (s.data.filter (fun c => c ≠ ',' ∧ c ≠ '$'))

/-! ## The urgency scoring rubric (src/index.js:223-305) -/

/-- `const dom = parseInt(listing.daysOnMarket) || 0` (src/index.js:226). -/
def domOf (l : Listing) : ℤ := jsOrInt (parseIntJS l.daysOnMarket) 0

/-- `const cdom = parseInt(listing.cumulativeDaysOnMarket) || 0`
(src/index.js:227). -/
def cdomOf (l : Listing) : ℤ := jsOrInt (parseIntJS l.cumulativeDaysOnMarket) 0

/-- `const price = parseInt(listing.price?.replace(/[,$]/g, "")) || 0`
(src/index.js:228). -/
def priceOf (l : Listing) : ℤ := jsOrInt (parseIntJS (stripMoney l.price)) 0

/-- `const yearBuilt = parseInt(listing.yearBuilt) || 2000`
(src/index.js:284). -/
def yearBuiltOf (l : Listing) : ℤ := jsOrInt (parseIntJS l.yearBuilt) 2000

/-- `const beds = parseInt(listing.bedrooms) || 0` (src/index.js:295). -/
def bedsOf (l : Listing) : ℤ := jsOrInt (parseIntJS l.bedrooms) 0

/-- Days since expiration (src/index.js:229-230):
`expiredDate ? Math.floor((Date.now() - expiredDate.getTime())/86400000) : 999`.
An empty string is falsy, giving 999; a non-empty string that
`new Date` cannot parse yields an Invalid Date whose `getTime()` is NaN,
and the NaN propagates (modelled `none`). -/
def daysSinceExpiredOf (parseDate : String → Option ℤ) (now : ℤ)
    (l : Listing) : Option ℤ :=
  if l.expiredDate = "" then some 999
  else
    match parseDate l.expiredDate with
    | none => none
    | some t => some ((now - t).fdiv 86400000)

/-- Factor 1, motivation level from DOM (src/index.js:234-242). -/
def motivationFactor (dom : ℤ) : ℚ :=
  if dom ≥ 180 then 2
  else if dom ≥ 90 then 3/2
  else if dom ≥ 45 then 1
  else 1/2

/-- Factor 2, frustration freshness (src/index.js:246-255); `none` is the
NaN case, where every comparison in the chain is false and nothing is
added. -/
def freshnessFactor : Option ℤ → ℚ
  | none => 0
  | some d =>
    if d ≤ 3 then 2
    else if d ≤ 7 then 3/2
    else if d ≤ 14 then 1
    else if d ≤ 30 then 1/2
    else 0

/-- Factor 3, repeat failure CDOM vs DOM (src/index.js:259-267). -/
def repeatFailureFactor (dom cdom : ℤ) : ℚ :=
  if (cdom : ℚ) > dom * 2 then 2
  else if (cdom : ℚ) > dom * (3/2) then 3/2
  else if cdom > dom then 1
  else 1/2

/-- Factor 4, price point appeal (src/index.js:271-280). -/
def priceAppealFactor (price : ℤ) : ℚ :=
  if 0 < price ∧ price < 150000 then 2
  else if 150000 ≤ price ∧ price < 250000 then 3/2
  else if 250000 ≤ price ∧ price < 400000 then 1
  else if 400000 ≤ price ∧ price < 600000 then 1/2
  else 0

/-- Factor 5a, property age (src/index.js:287-292). -/
def ageFactor (age : ℤ) : ℚ :=
  if age ≤ 15 then 1
  else if age ≤ 30 then 1/2
  else 0

/-- Factor 5b, bedroom count bonus (src/index.js:296-301). -/
def bedroomFactor (beds : ℤ) : ℚ :=
  if 3 ≤ beds ∧ beds ≤ 4 then 1
  else if beds = 2 ∨ beds = 5 then 1/2
  else 0

/-- JS `Math.round` for the non-negative values that occur here:
round half up. -/
def jsRound (x : ℚ) : ℤ := ⌊x + 1/2⌋

/-- The running `score` accumulator of `calculateUrgencyScore` just before
rounding (src/index.js:224-301): the sum of the six `score +=`
contributions. -/
def rawScore (parseDate : String → Option ℤ) (now currentYear : ℤ)
    (l : Listing) : ℚ :=
  motivationFactor (domOf l)
  + freshnessFactor (daysSinceExpiredOf parseDate now l)
  + repeatFailureFactor (domOf l) (cdomOf l)
  + priceAppealFactor (priceOf l)
  + ageFactor (currentYear - yearBuiltOf l)
  + bedroomFactor (bedsOf l)

/-- `calculateUrgencyScore` (src/index.js:223-305), final line
`Math.min(10, Math.round(score * 10) / 10)`.  `now` is `Date.now()` in
milliseconds and `currentYear` is `new Date().getFullYear()`; both come
from the ambient clock.  All operands are small dyadic rationals, so the
JS double arithmetic is exact and `ℚ` models it faithfully. -/
def calculateUrgencyScore (parseDate : String → Option ℤ)
    (now currentYear : ℤ) (l : Listing) : ℚ :=
  min 10 ((jsRound (rawScore parseDate now currentYear l * 10) : ℚ) / 10)

/-! ## CSV parsing (src/index.js:145-217) -/

/-- JS `String.prototype.split(sep)` for a single-character separator:
`""` gives `[""]`, a trailing separator gives a trailing empty field. -/
def splitOnChar (sep : Char) : List Char → List (List Char)
  | [] => [[]]
  | c :: t =>
    if c = sep then [] :: splitOnChar sep t
    else
      match splitOnChar sep t with
      | [] => [[c]]
      | f :: r => (c :: f) :: r

/-- The quote-aware field scanner of `parseCSVLine`
(src/index.js:199-214): a double quote toggles `inQuotes`, a comma
outside quotes flushes the trimmed current field, any other character
is appended; the final field is flushed (trimmed) at line end. -/
def scanCSV : List Char → List Char → Bool → List (List Char)
  | [], cur, _ => [trimChars cur]
  | c :: cs, cur, inq =>
    if c = '"' then scanCSV cs cur (!inq)
    else if c = ',' ∧ inq = false then trimChars cur :: scanCSV cs [] false
    else scanCSV cs (cur ++ [c]) inq

/-- `parseCSVLine` (src/index.js:198-217): quote-aware split, fields
trimmed when pushed, then each value has one leading and one trailing
quote stripped. -/
def parseCSVLine (line : String) : List String :=
  (scanCSV line.data [] false).map (fun v => String.mk (stripQuoteChars v))

/-- The header split of `parseCSV` (src/index.js:149):
`lines[0].split(",").map(h => h.trim().replace(/^"|"$/g, ""))` —
a plain comma split that is NOT quote-aware. -/
def headerSplit (line : String) : List String :=
  (splitOnChar ',' line.data).map (fun h => String.mk (stripQuoteChars (trimChars h)))

/-- `csvText.split("\n").filter(line => line.trim())`
(src/index.js:146). -/
def nonblankLines (csv : String) : List String :=
  ((splitOnChar '\n' csv.data).map String.mk).filter
    (fun l => trimChars l.data ≠ [])

/-- The row object built by
`headers.forEach((header, index) => listing[header] = values[index] || "")`
(src/index.js:155-157), modelled by peeling one header and one value at
a time; a missing value defaults to the empty string. -/
def rowRecord : List String → List String → List (String × String)
  | [], _ => []
  | h :: hs, vals => (h, vals.headD "") :: rowRecord hs vals.tail

/-- JS property lookup on the row object: the LAST assignment to a
duplicated header wins; an absent key reads as `""` (`undefined`
coalesced by `|| ""`). -/
def getField (row : List (String × String)) (key : String) : String :=
  row.foldl (fun acc p => if p.1 = key then p.2 else acc) ""

/-- The six HAR address sub-fields, in assembly order
(src/index.js:160-167). -/
def addressSubfields (row : List (String × String)) : List String :=
  [getField row "Street Number", getField row "Street Dir Prefix",
   getField row "Street Name", getField row "Street Suffix",
   getField row "Street Dir Suffix", getField row "Unit Number"]

/-- One loop iteration of `parseCSV` (src/index.js:153-188): tokenize
the line, build the row object, assemble the address from the non-blank
sub-fields joined by single spaces, and map the fixed column set into
the normalized record (absent columns default to `""`). -/
def normalizeRow (headers : List String) (ln : String) : Listing :=
  let row := rowRecord headers (parseCSVLine ln)
  let addressParts :=
    (addressSubfields row).filter (fun p => trimChars p.data ≠ [])
  { address := String.intercalate " " addressParts
    city := getField row "City/Location"
    zip := getField row "Zip Code"
    state := "TX"
    price := getField row "List Price"
    originalListDate := getField row "List Date"
    expiredDate := getField row "Last Change Timestamp"
    daysOnMarket := getField row "DOM"
    cumulativeDaysOnMarket := getField row "CDOM"
    bedrooms := getField row "Bedrooms"
    bathrooms := getField row "Baths Total"
    sqft := getField row "Building SqFt"
    yearBuilt := getField row "Year Built"
    listingAgent := getField row "List Agent Full Name"
    listingOffice := getField row "List Office Name"
    mlsNumber := getField row "MLS Number"
    propertyType := getField row "Property Type"
    status := getField row "Status" }

/-- The data-row loop of `parseCSV` (src/index.js:152-193): a record is
pushed only when its assembled address is non-empty (truthy). -/
def parseRows (headers : List String) : List String → List Listing
  | [] => []
  | ln :: rest =>
    let nl := normalizeRow headers ln
    if nl.address ≠ "" then nl :: parseRows headers rest
    else parseRows headers rest

/-- `parseCSV` (src/index.js:145-196): split into non-blank lines,
require a header plus at least one data row, split the header naively
on commas, then run the data-row loop. -/
def parseCSV (csvText : String) : List Listing :=
  match nonblankLines csvText with
  | h :: d :: rest => parseRows (headerSplit h) (d :: rest)
  | _ => []

/-- Quote each field and join with commas: the shape of a CSV line whose
fields may contain embedded commas. -/
def quoteJoin : List (List Char) → List Char
  | [] => []
  | [f] => '"' :: (f ++ ['"'])
  | f :: g :: rest => '"' :: (f ++ ['"'] ++ (',' :: quoteJoin (g :: rest)))

/-! ## Skip tracing (src/index.js:311-451)

Each HTTP interaction either throws (a rejected `fetch`/`json` promise,
caught by the surrounding `try`) or yields a response with an `ok` flag
and a body.  `skipTraceWithTracerfy` is a pure function of an
environment of such outcomes: the submission outcome, the
attempt-indexed poll outcomes, and the result-download outcome. -/

/-- Outcome of one HTTP interaction. -/
inductive Fetch (α : Type) where
  | throw : Fetch α
  | resp (ok : Bool) (body : α) : Fetch α
  deriving Repr, DecidableEq, Inhabited

/-- The JSON body of a Tracerfy status response; `none` models an absent
field (src/index.js:376-378). -/
structure StatusBody where
  status : Option String := none
  state : Option String := none
  pending : Option Bool := none
  download_url : Option String := none
  result_url : Option String := none
  file_url : Option String := none
  url : Option String := none
  deriving Repr, DecidableEq, Inhabited

/-- JS truthiness of a possibly-absent string field. -/
def jsTruthy : Option String → Bool
  | none => false
  | some s => s ≠ ""

/-- `statusResult.status || statusResult.state` (src/index.js:376). -/
def statusVal (b : StatusBody) : Option String :=
  if jsTruthy b.status then b.status else b.state

/-- `status === "completed" || status === "complete" || status === "done"
|| statusResult.pending === false` (src/index.js:377). -/
def isComplete (b : StatusBody) : Bool :=
  statusVal b = some "completed" ∨ statusVal b = some "complete" ∨
    statusVal b = some "done" ∨ b.pending = some false

/-- `statusResult.download_url || statusResult.result_url ||
statusResult.file_url || statusResult.url` (src/index.js:378). -/
def resultUrlOf (b : StatusBody) : Option String :=
  if jsTruthy b.download_url then b.download_url
  else if jsTruthy b.result_url then b.result_url
  else if jsTruthy b.file_url then b.file_url
  else b.url

/-- The guard `if (isComplete && resultUrl)` (src/index.js:380): the URL
that the loop breaks with, if any. -/
def completeUrl (b : StatusBody) : Option String :=
  match resultUrlOf b with
  | some u => if isComplete b ∧ u ≠ "" then some u else none
  | none => none

/-- The environment of HTTP outcomes one run of `skipTraceWithTracerfy`
can observe. -/
structure TraceEnv where
  submit : Fetch Unit
  poll : ℕ → Fetch StatusBody
  download : Fetch String

/-- The poll loop (src/index.js:353-386), by remaining fuel
(`maxAttempts - attempts`): a thrown status fetch escapes to the `catch`
(modelled `Except.error`); a non-ok response or an incomplete body
increments `attempts` and continues; completion with a truthy URL breaks.
The second component counts status requests performed. -/
def pollAux (poll : ℕ → Fetch StatusBody) :
    ℕ → ℕ → Except Unit (Option String) × ℕ
  | _, 0 => (Except.ok none, 0)
  | attempts, fuel + 1 =>
    match poll attempts with
    | Fetch.throw => (Except.error (), 1)
    | Fetch.resp ok body =>
      if ok = false then
        let r := pollAux poll (attempts + 1) fuel
        (r.1, r.2 + 1)
      else
        match completeUrl body with
        | some u => (Except.ok (some u), 1)
        | none =>
          let r := pollAux poll (attempts + 1) fuel
          (r.1, r.2 + 1)

/-- The poll loop from `attempts = 0` with `maxAttempts = 12`
(src/index.js:353-354). -/
def pollLoop (poll : ℕ → Fetch StatusBody) :
    Except Unit (Option String) × ℕ :=
  pollAux poll 0 12

/-- `parseTracerfyResults` (src/index.js:434-451): same tokenizer as
`parseCSV`, with header names trimmed, quote-stripped, lower-cased and
whitespace runs replaced by underscores; every data row is kept. -/
def parseTracerfyResults (csv : String) : List (List (String × String)) :=
  match nonblankLines csv with
  | h :: d :: rest =>
    let headers := (splitOnChar ',' h.data).map
      (fun c => String.mk (wsToUnderscore (lowerChars (stripQuoteChars (trimChars c)))))
    (d :: rest).map (fun ln => rowRecord headers (parseCSVLine ln))
  | _ => []

/-- The address heuristic of the match-back (src/index.js:408-412):
first whitespace token of either lower-cased trimmed address occurs as a
substring of the other. -/
def matchAddr (l : Listing) (r : List (String × String)) : Bool :=
  let na := trimChars (lowerChars l.address.data)
  let ra := trimChars (lowerChars (getField r "address").data)
  containsSeq (firstToken na) ra || containsSeq (firstToken ra) na

/-- The attached owner name (src/index.js:417).  The JS conditional
`match.owner_name || match.first_name ? X : ""` parses as
`(match.owner_name || match.first_name) ? X : ""`, so whenever either
field is truthy the value is the first+last template, never
`owner_name` itself. -/
def contactOwnerName (r : List (String × String)) : String :=
  if getField r "owner_name" ≠ "" ∨ getField r "first_name" ≠ "" then
    String.mk (trimChars
      (getField r "first_name" ++ " " ++ getField r "last_name").data)
  else ""

/-- `match.mobile_1 || match.landline_1 || match.phone_1 || ""`
(src/index.js:418). -/
def contactOwnerPhone (r : List (String × String)) : String :=
  jsOrStr (getField r "mobile_1")
    (jsOrStr (getField r "landline_1") (jsOrStr (getField r "phone_1") ""))

/-- `match.email_1 || match.email || ""` (src/index.js:419). -/
def contactOwnerEmail (r : List (String × String)) : String :=
  jsOrStr (getField r "email_1") (jsOrStr (getField r "email") "")

/-- `match.mail_address || ""` (src/index.js:420). -/
def contactMailing (r : List (String × String)) : String :=
  jsOrStr (getField r "mail_address") ""

/-- Enrichment of one listing (src/index.js:406-424): the FIRST matching
contact row attaches the four owner fields; no match returns the
listing unchanged. -/
def enrichOne (results : List (List (String × String))) (l : Listing) :
    Listing :=
  match results.find? (fun r => matchAddr l r) with
  | some m =>
    { l with
      ownerName := some (contactOwnerName m)
      ownerPhone := some (contactOwnerPhone m)
      ownerEmail := some (contactOwnerEmail m)
      ownerMailingAddress := some (contactMailing m) }
  | none => l

/-- The match-back map over all listings (src/index.js:406-426). -/
def matchBack (listings : List Listing)
    (results : List (List (String × String))) : List Listing :=
  listings.map (enrichOne results)

/-- `skipTraceWithTracerfy` (src/index.js:311-431): non-ok submission,
a poll loop ending without a URL, a thrown promise anywhere (the
surrounding `try`/`catch`), or a non-ok download all return the original
listings; otherwise the downloaded CSV is parsed and matched back. -/
def skipTrace (env : TraceEnv) (listings : List Listing) : List Listing :=
  match env.submit with
  | Fetch.throw => listings
  | Fetch.resp ok _ =>
    if ok = false then listings
    else
      match (pollLoop env.poll).1 with
      | Except.error _ => listings
      | Except.ok none => listings
      | Except.ok (some _) =>
        match env.download with
        | Fetch.throw => listings
        | Fetch.resp dok csv =>
          if dok = false then listings
          else matchBack listings (parseTracerfyResults csv)

/-- An HTTP outcome that fails: thrown, or responded non-ok. -/
def fetchFails {α : Type} : Fetch α → Prop
  | Fetch.throw => True
  | Fetch.resp ok _ => ok = false

/-- A poll outcome that does not satisfy the completion guard: a non-ok
status response, or an ok response whose body fails
`isComplete && resultUrl`.  (A thrown status fetch is excluded: it
aborts the loop through the `catch` instead of being counted.) -/
def pollIncomplete : Fetch StatusBody → Prop
  | Fetch.throw => False
  | Fetch.resp ok body => ok = true → completeUrl body = none

/-! ## Case analyses of the six factors -/

theorem motivationFactor_cases (d : ℤ) :
    ∃ k : ℕ, 1 ≤ k ∧ k ≤ 4 ∧ motivationFactor d = k / 2 := by
  unfold motivationFactor
  split_ifs
  · exact ⟨4, by norm_num⟩
  · exact ⟨3, by norm_num⟩
  · exact ⟨2, by norm_num⟩
  · exact ⟨1, by norm_num⟩

theorem freshnessFactor_cases (o : Option ℤ) :
    ∃ k : ℕ, k ≤ 4 ∧ freshnessFactor o = k / 2 := by
  cases o with
  | none => exact ⟨0, by norm_num [freshnessFactor]⟩
  | some d =>
    simp only [freshnessFactor]
    split_ifs
    · exact ⟨4, by norm_num⟩
    · exact ⟨3, by norm_num⟩
    · exact ⟨2, by norm_num⟩
    · exact ⟨1, by norm_num⟩
    · exact ⟨0, by norm_num⟩

theorem repeatFailureFactor_cases (d c : ℤ) :
    ∃ k : ℕ, 1 ≤ k ∧ k ≤ 4 ∧ repeatFailureFactor d c = k / 2 := by
  unfold repeatFailureFactor
  split_ifs
  · exact ⟨4, by norm_num⟩
  · exact ⟨3, by norm_num⟩
  · exact ⟨2, by norm_num⟩
  · exact ⟨1, by norm_num⟩

theorem priceAppealFactor_cases (p : ℤ) :
    ∃ k : ℕ, k ≤ 4 ∧ priceAppealFactor p = k / 2 := by
  unfold priceAppealFactor
  split_ifs
  · exact ⟨4, by norm_num⟩
  · exact ⟨3, by norm_num⟩
  · exact ⟨2, by norm_num⟩
  · exact ⟨1, by norm_num⟩
  · exact ⟨0, by norm_num⟩

theorem ageFactor_cases (a : ℤ) :
    ∃ k : ℕ, k ≤ 2 ∧ ageFactor a = k / 2 := by
  unfold ageFactor
  split_ifs
  · exact ⟨2, by norm_num⟩
  · exact ⟨1, by norm_num⟩
  · exact ⟨0, by norm_num⟩

theorem bedroomFactor_cases (b : ℤ) :
    ∃ k : ℕ, k ≤ 2 ∧ bedroomFactor b = k / 2 := by
  unfold bedroomFactor
  split_ifs
  · exact ⟨2, by norm_num⟩
  · exact ⟨1, by norm_num⟩
  · exact ⟨0, by norm_num⟩

theorem jsRound_int (n : ℤ) : jsRound ((n : ℚ)) = n := by
  unfold jsRound
  rw [Int.floor_eq_iff] <;> constructor <;> push_cast <;> linarith

/-- Every reachable score is a half-integer `K/2` with `2 ≤ K ≤ 20`; the
round-then-cap postprocessing is the identity on these values. -/
theorem urgencyScore_eq_half_integer (pd : String → Option ℤ)
    (now year : ℤ) (l : Listing) :
    ∃ K : ℕ, 2 ≤ K ∧ K ≤ 20 ∧
      calculateUrgencyScore pd now year l = (K : ℚ) / 2 := by
  obtain ⟨k1, hk1, hk1', e1⟩ := motivationFactor_cases (domOf l)
  obtain ⟨k2, hk2, e2⟩ := freshnessFactor_cases (daysSinceExpiredOf pd now l)
  obtain ⟨k3, hk3, hk3', e3⟩ := repeatFailureFactor_cases (domOf l) (cdomOf l)
  obtain ⟨k4, hk4, e4⟩ := priceAppealFactor_cases (priceOf l)
  obtain ⟨k5, hk5, e5⟩ := ageFactor_cases (year - yearBuiltOf l)
  obtain ⟨k6, hk6, e6⟩ := bedroomFactor_cases (bedsOf l)
  refine ⟨k1 + k2 + k3 + k4 + k5 + k6, by omega, by omega, ?_⟩
  have hs : rawScore pd now year l
      = ((k1 + k2 + k3 + k4 + k5 + k6 : ℕ) : ℚ) / 2 := by
    unfold rawScore
    rw [e1, e2, e3, e4, e5, e6]
    push_cast
    ring
  have h10 : rawScore pd now year l * 10
      = (((5 * (k1 + k2 + k3 + k4 + k5 + k6) : ℕ) : ℤ) : ℚ) := by
    rw [hs]; push_cast; ring
  have hK : ((k1 + k2 + k3 + k4 + k5 + k6 : ℕ) : ℚ) ≤ 20 := by
    have : k1 + k2 + k3 + k4 + k5 + k6 ≤ 20 := by omega
    exact_mod_cast this
  unfold calculateUrgencyScore
  rw [h10, jsRound_int]
  rw [min_eq_right (by push_cast at hK ⊢; linarith)]
  push_cast
  ring

/-- C2: for every listing and every fixed clock value, the urgency score
lies in the closed interval `[0, 10]` and is an integer number of
tenths. -/
theorem c2_score_in_range_one_decimal (pd : String → Option ℤ)
    (now year : ℤ) (l : Listing) :
    0 ≤ calculateUrgencyScore pd now year l ∧
      calculateUrgencyScore pd now year l ≤ 10 ∧
      ∃ n : ℕ, calculateUrgencyScore pd now year l = (n : ℚ) / 10 := by
  obtain ⟨K, hK2, hK20, hEq⟩ := urgencyScore_eq_half_integer pd now year l
  refine ⟨by rw [hEq]; positivity, ?_, ⟨5 * K, ?_⟩⟩
  · rw [hEq]
    have : (K : ℚ) ≤ 20 := by exact_mod_cast hK20
    linarith
  · rw [hEq]; push_cast; ring

/-- C9: the motivation and repeat-failure factors each contribute at
least 0.5 in their `else` branches, so every urgency score is at least
1.0 and the range `[0, 1)` is unreachable. -/
theorem c9_score_at_least_one (pd : String → Option ℤ)
    (now year : ℤ) (l : Listing) :
    1 ≤ calculateUrgencyScore pd now year l := by
  obtain ⟨K, hK2, _, hEq⟩ := urgencyScore_eq_half_integer pd now year l
  rw [hEq]
  have : (2 : ℚ) ≤ (K : ℚ) := by exact_mod_cast hK2
  linarith

/-! ## C1: rubric breakpoints -/

/-- A listing whose DOM and CDOM strings parse to `-1`; `parseInt` does
return negative values, so this listing is reachable from a CSV row. -/
def lNegDom : Listing :=
  { daysOnMarket := "-1", cumulativeDaysOnMarket := "-1" }

/-- C1 (counterexample): the repeat-failure breakpoint claim fails when
DOM is negative — with `DOM = CDOM = -1` the first branch
`cdom > dom * 2` is `-1 > -2`, which holds, so the factor contributes
2.0, not 0.5. -/
theorem c1_counterexample :
    cdomOf lNegDom = domOf lNegDom ∧
      repeatFailureFactor (domOf lNegDom) (cdomOf lNegDom) ≠ 1 / 2 ∧
      repeatFailureFactor (domOf lNegDom) (cdomOf lNegDom) = 2 := by
  have hd : domOf lNegDom = -1 := by decide
  have hc : cdomOf lNegDom = -1 := by decide
  refine ⟨by rw [hd, hc], ?_, ?_⟩ <;> rw [hd, hc] <;>
    norm_num [repeatFailureFactor]

/-- C1 (amended): the rubric breakpoints as claimed, with the
repeat-failure clause restricted to non-negative DOM (the
counterexample shows it fails for negative DOM): DOM = 180 gives
motivation 2.0 while 179 gives 1.5; CDOM = DOM ≥ 0 gives repeat-failure
0.5 because the thresholds are strict; price exactly 150000 gives price
appeal 1.5, not 2.0. -/
theorem c1_rubric_breakpoints (l : Listing) :
    (domOf l = 180 → motivationFactor (domOf l) = 2) ∧
      (domOf l = 179 → motivationFactor (domOf l) = 3 / 2) ∧
      (cdomOf l = domOf l → 0 ≤ domOf l →
        repeatFailureFactor (domOf l) (cdomOf l) = 1 / 2) ∧
      (priceOf l = 150000 → priceAppealFactor (priceOf l) = 3 / 2) := by
  refine ⟨fun h => ?_, fun h => ?_, fun hc hd => ?_, fun h => ?_⟩
  · rw [h]; norm_num [motivationFactor]
  · rw [h]; norm_num [motivationFactor]
  · rw [hc]
    have hdq : (0 : ℚ) ≤ (domOf l : ℚ) := by exact_mod_cast hd
    unfold repeatFailureFactor
    rw [if_neg (by push_cast; linarith), if_neg (by push_cast; linarith),
      if_neg (by omega)]
  · rw [h]; norm_num [priceAppealFactor]

/-- A listing sitting exactly on the DOM = 180, CDOM = DOM and
price = 150000 breakpoints. -/
def lBoundary : Listing :=
  { daysOnMarket := "180", cumulativeDaysOnMarket := "180",
    price := "150000" }

/-- A listing with DOM = 179. -/
def lDom179 : Listing := { daysOnMarket := "179" }

theorem c1_witness :
    motivationFactor (domOf lBoundary) = 2 ∧
      motivationFactor (domOf lDom179) = 3 / 2 ∧
      repeatFailureFactor (domOf lBoundary) (cdomOf lBoundary) = 1 / 2 ∧
      priceAppealFactor (priceOf lBoundary) = 3 / 2 :=
  ⟨(c1_rubric_breakpoints lBoundary).1 (by decide),
   (c1_rubric_breakpoints lDom179).2.1 (by decide),
   (c1_rubric_breakpoints lBoundary).2.2.1 (by decide) (by decide),
   (c1_rubric_breakpoints lBoundary).2.2.2 (by decide)⟩

/-! ## C3: the freshness factor -/

/-- A date-parse oracle for strings `new Date` cannot parse (for example
`"not-a-date"`, which yields an Invalid Date). -/
def noDate : String → Option ℤ := fun _ => none

/-- A listing whose expiration field is present but unparseable. -/
def lBadDate : Listing := { expiredDate := "not-a-date" }

/-- C3 (counterexample): for a present-but-unparseable expiration date
the code does not use 999 — `new Date("not-a-date").getTime()` is NaN,
so `daysSinceExpired` is NaN (modelled `none`), not 999.  Only an
absent (empty) expiration date takes the 999 path. -/
theorem c3_counterexample :
    daysSinceExpiredOf noDate 0 lBadDate ≠ some 999 ∧
      daysSinceExpiredOf noDate 0 lBadDate = none := by
  constructor <;> decide

/-- C3 (amended): `daysSinceExpired` is 999 exactly when the expiration
date is absent (empty string); a present-but-unparseable date
propagates NaN, under which every branch comparison is false; a parsed
date gives the floor of elapsed whole days; and the factor contributes
2.0 for values ≤ 3, 1.5 for ≤ 7, 1.0 for ≤ 14, 0.5 for ≤ 30, and 0.0
above 30 — so both the 999 case and the NaN case contribute 0 points. -/
theorem c3_freshness_days (pd : String → Option ℤ) (now : ℤ)
    (l : Listing) :
    (l.expiredDate = "" → daysSinceExpiredOf pd now l = some 999) ∧
      (l.expiredDate ≠ "" → pd l.expiredDate = none →
        daysSinceExpiredOf pd now l = none) ∧
      (∀ t : ℤ, l.expiredDate ≠ "" → pd l.expiredDate = some t →
        daysSinceExpiredOf pd now l = some ((now - t).fdiv 86400000)) ∧
      (∀ d : ℤ,
        (d ≤ 3 → freshnessFactor (some d) = 2) ∧
        (3 < d ∧ d ≤ 7 → freshnessFactor (some d) = 3 / 2) ∧
        (7 < d ∧ d ≤ 14 → freshnessFactor (some d) = 1) ∧
        (14 < d ∧ d ≤ 30 → freshnessFactor (some d) = 1 / 2) ∧
        (30 < d → freshnessFactor (some d) = 0)) ∧
      freshnessFactor none = 0 ∧ freshnessFactor (some 999) = 0 := by
  refine ⟨fun h => ?_, fun h h' => ?_, fun t h h' => ?_, fun d => ?_,
    rfl, by norm_num [freshnessFactor]⟩
  · simp [daysSinceExpiredOf, h]
  · simp [daysSinceExpiredOf, h, h']
  · simp [daysSinceExpiredOf, h, h']
  · simp only [freshnessFactor]
    refine ⟨fun h => ?_, fun h => ?_, fun h => ?_, fun h => ?_, fun h => ?_⟩
    · rw [if_pos h]
    · rw [if_neg (by omega), if_pos (by omega)]
    · rw [if_neg (by omega), if_neg (by omega), if_pos (by omega)]
    · rw [if_neg (by omega), if_neg (by omega), if_neg (by omega),
        if_pos (by omega)]
    · rw [if_neg (by omega), if_neg (by omega), if_neg (by omega),
        if_neg (by omega)]

/-- A date-parse oracle that understands exactly one date string, sent
to epoch time 0. -/
def oneDate : String → Option ℤ :=
  fun s => if s = "2025-01-01" then some 0 else none

/-- A listing that expired at epoch time 0. -/
def lJan : Listing := { expiredDate := "2025-01-01" }

theorem c3_witness :
    daysSinceExpiredOf oneDate 0 ({} : Listing) = some 999 ∧
      daysSinceExpiredOf noDate 0 lBadDate = none ∧
      daysSinceExpiredOf oneDate (2 * 86400000) lJan
        = some (((2 * 86400000 : ℤ) - 0).fdiv 86400000) ∧
      freshnessFactor (some 2) = 2 :=
  ⟨(c3_freshness_days oneDate 0 {}).1 rfl,
   (c3_freshness_days noDate 0 lBadDate).2.1 (by decide) rfl,
   (c3_freshness_days oneDate (2 * 86400000) lJan).2.2.1 0 (by decide)
     (by decide),
   ((c3_freshness_days oneDate 0 lJan).2.2.2.1 2).1 (by norm_num)⟩

/-! ## C4: quote handling in the tokenizer and the header split -/

theorem trimChars_subset (cs : List Char) : trimChars cs ⊆ cs := by
  unfold trimChars trimLeft
  intro a ha
  rw [List.mem_reverse] at ha
  have ha2 := (List.dropWhile_sublist _).subset ha
  rw [List.mem_reverse] at ha2
  exact (List.dropWhile_sublist _).subset ha2

theorem stripQuoteChars_no_quote (cs : List Char) (h : '"' ∉ cs) :
    stripQuoteChars cs = cs := by
  unfold stripQuoteChars
  have h1 : ¬ cs.head? = some '"' := by
    cases cs with
    | nil => simp
    | cons c t =>
      simp only [List.head?_cons, Option.some.injEq]
      intro e
      exact h (e ▸ List.mem_cons_self c t)
  rw [if_neg h1]
  have h2 : ¬ cs.getLast? = some '"' := by
    rw [List.getLast?_eq_head?_reverse]
    cases hr : cs.reverse with
    | nil => simp
    | cons c t =>
      simp only [List.head?_cons, Option.some.injEq]
      intro e
      apply h
      rw [← List.mem_reverse, hr, e]
      exact List.mem_cons_self _ _
  rw [if_neg h2]

theorem scanCSV_inQuotes (f : List Char) (h : '"' ∉ f) :
    ∀ (cs cur : List Char),
      scanCSV (f ++ cs) cur true = scanCSV cs (cur ++ f) true := by
  induction f with
  | nil => intro cs cur; simp
  | cons c t ih =>
    intro cs cur
    have hc : ¬ (c = '"') := fun e => h (e ▸ List.mem_cons_self c t)
    simp only [List.cons_append, scanCSV]
    rw [if_neg hc, if_neg (by simp)]
    have hrec := ih (fun hm => h (List.mem_cons_of_mem _ hm)) cs (cur ++ [c])
    simpa [List.append_eq, List.append_assoc] using hrec

theorem scanCSV_quoteJoin (fs : List (List Char))
    (h : ∀ f ∈ fs, '"' ∉ f) (hne : fs ≠ []) :
    scanCSV (quoteJoin fs) [] false = fs.map trimChars := by
  induction fs with
  | nil => exact absurd rfl hne
  | cons f rest ih =>
    have hf : '"' ∉ f := h f (List.mem_cons_self f rest)
    cases rest with
    | nil =>
      show scanCSV ('"' :: (f ++ ['"'])) [] false = [trimChars f]
      have step1 : scanCSV ('"' :: (f ++ ['"'])) [] false
          = scanCSV (f ++ ['"']) [] true := by
        simp [scanCSV]
      rw [step1, scanCSV_inQuotes f hf ['"'] []]
      simp [scanCSV]
    | cons g rest' =>
      show scanCSV ('"' :: (f ++ ['"'] ++ (',' :: quoteJoin (g :: rest'))))
          [] false = trimChars f :: (g :: rest').map trimChars
      have step1 : scanCSV ('"' :: (f ++ ['"'] ++ (',' :: quoteJoin (g :: rest'))))
          [] false
          = scanCSV (f ++ ('"' :: ',' :: quoteJoin (g :: rest'))) [] true := by
        simp [scanCSV, List.append_assoc]
      rw [step1, scanCSV_inQuotes f hf _ []]
      have step2 : scanCSV ('"' :: ',' :: quoteJoin (g :: rest'))
          ([] ++ f) true
          = trimChars f :: scanCSV (quoteJoin (g :: rest')) [] false := by
        simp [scanCSV]
      rw [step2, ih (fun x hx => h x (List.mem_cons_of_mem _ hx)) (by simp)]

/-- The witness field of the spec's tokenizer round-trip example. -/
def apt4Field : List Char := "123 Main St, Apt 4".data

/-- A header line whose first cell contains a quoted embedded comma,
followed by a matching data line. -/
def hdrQuoted : String := "\"Street Number, note\",Street Name"

/-- C4 (counterexample): the header row is split by a plain
`split(",")`, not by the quote-aware tokenizer — on the same line the
header split yields three column names where the tokenizer yields two
fields, so a quoted header cell with an embedded comma desynchronizes
the columns: the data value "Main" lands under the column name "note"
and the real column "Street Name" reads as empty. -/
theorem c4_counterexample :
    headerSplit hdrQuoted = ["Street Number", "note", "Street Name"] ∧
      parseCSVLine hdrQuoted = ["Street Number, note", "Street Name"] ∧
      getField (rowRecord (headerSplit hdrQuoted)
        (parseCSVLine "\"7, A\",Main")) "Street Name" = "" ∧
      getField (rowRecord (headerSplit hdrQuoted)
        (parseCSVLine "\"7, A\",Main")) "note" = "Main" := by
  refine ⟨by decide, by decide, by decide, by decide⟩

/-- C4 (amended): the data-row tokenizer `parseCSVLine` does respect
double-quote-delimited fields — a line of quoted, quote-free fields
(which may contain embedded commas) parses back to exactly those
fields, trimmed — but the header row is split naively on commas, so
header/data column alignment is only preserved when header cells
contain no embedded commas. -/
theorem c4_quoted_data_fields (line : String) (fs : List (List Char))
    (hline : line.data = quoteJoin fs) (hne : fs ≠ [])
    (hq : ∀ f ∈ fs, '"' ∉ f) :
    parseCSVLine line = fs.map (fun f => String.mk (trimChars f)) := by
  unfold parseCSVLine
  rw [hline, scanCSV_quoteJoin fs hq hne, List.map_map]
  apply List.map_congr_left
  intro f hf
  have : '"' ∉ trimChars f := fun hm => hq f hf (trimChars_subset f hm)
  simp [Function.comp, stripQuoteChars_no_quote _ this]

theorem c4_witness :
    ("\"123 Main St, Apt 4\"" : String).data = quoteJoin [apt4Field] ∧
      parseCSVLine "\"123 Main St, Apt 4\""
        = [apt4Field].map (fun f => String.mk (trimChars f)) ∧
      [apt4Field].map (fun f => String.mk (trimChars f))
        = ["123 Main St, Apt 4"] :=
  ⟨by decide,
   c4_quoted_data_fields _ [apt4Field] (by decide) (by decide) (by decide),
   by decide⟩

/-! ## C5: row retention and field defaulting in parseCSV -/

theorem getField_of_no_key (row : List (String × String)) (key : String)
    (h : ∀ p ∈ row, p.1 ≠ key) : getField row key = "" := by
  unfold getField
  suffices hgen : ∀ acc : String,
      row.foldl (fun a p => if p.1 = key then p.2 else a) acc = acc from
    hgen ""
  induction row with
  | nil => intro acc; rfl
  | cons p rest ih =>
    intro acc
    rw [List.foldl_cons, if_neg (h p (List.mem_cons_self p rest))]
    exact ih (fun q hq => h q (List.mem_cons_of_mem _ hq)) acc

theorem rowRecord_key_mem (headers : List String) :
    ∀ (vals : List String) (p : String × String),
      p ∈ rowRecord headers vals → p.1 ∈ headers := by
  induction headers with
  | nil => intro vals p hp; exact absurd hp (List.not_mem_nil p)
  | cons h hs ih =>
    intro vals p hp
    rcases List.mem_cons.mp hp with he | hm
    · rw [he]; exact List.mem_cons_self h hs
    · exact List.mem_cons_of_mem _ (ih vals.tail p hm)

theorem getField_of_absent_column (headers vals : List String)
    (key : String) (h : key ∉ headers) :
    getField (rowRecord headers vals) key = "" :=
  getField_of_no_key _ _ (fun p hp e =>
    h (e ▸ rowRecord_key_mem headers vals p hp))

theorem parseRows_eq_filter_map (headers : List String) (rows : List String) :
    parseRows headers rows
      = (rows.filter
          (fun ln => (normalizeRow headers ln).address ≠ "")).map
          (normalizeRow headers) := by
  induction rows with
  | nil => rfl
  | cons ln rest ih =>
    by_cases hc : (normalizeRow headers ln).address ≠ ""
    · simp only [parseRows, if_pos hc, List.filter_cons,
        decide_eq_true hc, if_pos]
      rw [List.map_cons, ih]
    · simp only [parseRows, if_neg hc, List.filter_cons]
      rw [if_neg (by simpa using hc), ih]

/-- C5: every data row whose assembled address is non-empty contributes
exactly one ListingRecord (in order), rows with an empty assembled
address are dropped, every retained record has a non-empty address, and
a field whose source column is absent from the header reads as the
empty string (shown generally for the row object and specifically for
`city`). -/
theorem c5_row_retention (csv : String) (hd : String) (rs : List String)
    (hl : nonblankLines csv = hd :: rs) :
    parseCSV csv
        = (rs.filter
            (fun ln => (normalizeRow (headerSplit hd) ln).address ≠ "")).map
            (normalizeRow (headerSplit hd)) ∧
      (∀ l ∈ parseCSV csv, l.address ≠ "") ∧
      (∀ (key : String) (vals : List String), key ∉ headerSplit hd →
        getField (rowRecord (headerSplit hd) vals) key = "") ∧
      (∀ ln : String, "City/Location" ∉ headerSplit hd →
        (normalizeRow (headerSplit hd) ln).city = "") := by
  have hmain : parseCSV csv
      = (rs.filter
          (fun ln => (normalizeRow (headerSplit hd) ln).address ≠ "")).map
          (normalizeRow (headerSplit hd)) := by
    cases rs with
    | nil => simp only [parseCSV, hl, List.filter_nil, List.map_nil]
    | cons r rest =>
      simp only [parseCSV, hl]
      exact parseRows_eq_filter_map _ _
  refine ⟨hmain, ?_, ?_, ?_⟩
  · intro l hl'
    rw [hmain] at hl'
    obtain ⟨ln, hln, rfl⟩ := List.mem_map.mp hl'
    exact of_decide_eq_true (List.mem_filter.mp hln).2
  · intro key vals hk
    exact getField_of_absent_column _ _ _ hk
  · intro ln hk
    show getField (rowRecord (headerSplit hd) (parseCSVLine ln))
      "City/Location" = ""
    exact getField_of_absent_column _ _ _ hk

/-- A two-data-row CSV: the first row assembles a non-empty address, the
second an empty one. -/
def csvSample : String := "Street Number,City/Location\n100,Houston\n,Nowhere"

theorem c5_witness :
    nonblankLines csvSample
        = ["Street Number,City/Location", "100,Houston", ",Nowhere"] ∧
      parseCSV csvSample
        = (["100,Houston", ",Nowhere"].filter
            (fun ln => (normalizeRow
              (headerSplit "Street Number,City/Location") ln).address ≠ "")).map
            (normalizeRow (headerSplit "Street Number,City/Location")) ∧
      (parseCSV csvSample).map (fun l => (l.address, l.city))
        = [("100", "Houston")] ∧
      getField (rowRecord (headerSplit "Street Number,City/Location")
        (parseCSVLine "100,Houston")) "Zip Code" = "" :=
  ⟨by decide,
   (c5_row_retention csvSample "Street Number,City/Location"
     ["100,Houston", ",Nowhere"] (by decide)).1,
   by decide,
   (c5_row_retention csvSample "Street Number,City/Location"
     ["100,Houston", ",Nowhere"] (by decide)).2.2.1 "Zip Code"
     (parseCSVLine "100,Houston") (by decide)⟩

/-! ## C6: the poll-attempt budget -/

theorem pollAux_never_completes (poll : ℕ → Fetch StatusBody)
    (h : ∀ i, pollIncomplete (poll i)) :
    ∀ (fuel a : ℕ), pollAux poll a fuel = (Except.ok none, fuel) := by
  intro fuel
  induction fuel with
  | zero => intro a; rfl
  | succ n ih =>
    intro a
    have ha := h a
    cases hp : poll a with
    | throw => rw [hp] at ha; exact ha.elim
    | resp ok body =>
      rw [hp] at ha
      simp only [pollAux, hp]
      cases ok with
      | false => simp [ih]
      | true =>
        have hc : completeUrl body = none := ha rfl
        simp [hc, ih]

theorem pollAux_call_bound (poll : ℕ → Fetch StatusBody) :
    ∀ (fuel a : ℕ), (pollAux poll a fuel).2 ≤ fuel := by
  intro fuel
  induction fuel with
  | zero => intro a; exact Nat.le_refl 0
  | succ n ih =>
    intro a
    cases hp : poll a with
    | throw => simp [pollAux, hp]
    | resp ok body =>
      simp only [pollAux, hp]
      cases ok with
      | false =>
        simpa using Nat.succ_le_succ (ih (a + 1))
      | true =>
        cases hc : completeUrl body with
        | some u => simp
        | none => simpa using Nat.succ_le_succ (ih (a + 1))

/-- C6: when no poll response ever satisfies the completion guard —
counting non-ok status checks and incomplete status bodies alike — the
loop makes exactly 12 status requests, ends without a download URL, the
client returns the original listing set, and (for any oracle at all)
the request count never exceeds 12. -/
theorem c6_poll_exactly_twelve (env : TraceEnv) (listings : List Listing)
    (h : ∀ i, pollIncomplete (env.poll i)) :
    pollLoop env.poll = (Except.ok none, 12) ∧
      skipTrace env listings = listings ∧
      (∀ p : ℕ → Fetch StatusBody, (pollLoop p).2 ≤ 12) := by
  have hp : pollLoop env.poll = (Except.ok none, 12) :=
    pollAux_never_completes env.poll h 12 0
  refine ⟨hp, ?_, fun p => pollAux_call_bound p 12 0⟩
  unfold skipTrace
  cases env.submit with
  | throw => rfl
  | resp ok u =>
    cases ok with
    | false => simp
    | true => simp [hp]

/-- An environment whose status endpoint answers every poll with a
non-ok response. -/
def envPollFail : TraceEnv :=
  { submit := Fetch.resp true ()
    poll := fun _ => Fetch.resp false default
    download := Fetch.throw }

theorem c6_witness :
    pollLoop envPollFail.poll = (Except.ok none, 12) ∧
      skipTrace envPollFail [({} : Listing)] = [({} : Listing)] :=
  ⟨(c6_poll_exactly_twelve envPollFail [{}]
      (fun i => by simp [envPollFail, pollIncomplete])).1,
   (c6_poll_exactly_twelve envPollFail [{}]
      (fun i => by simp [envPollFail, pollIncomplete])).2.1⟩

/-! ## C7: enrichment is strictly best-effort -/

/-- C7: a failed submission, a thrown promise at any stage, a poll loop
that ends without a URL, or a failed download each make
`skipTraceWithTracerfy` return the original listing set unchanged. -/
theorem c7_soft_failure (env : TraceEnv) (listings : List Listing)
    (h : fetchFails env.submit ∨
      (pollLoop env.poll).1 = Except.error () ∨
      (pollLoop env.poll).1 = Except.ok none ∨
      fetchFails env.download) :
    skipTrace env listings = listings := by
  unfold skipTrace
  cases hs : env.submit with
  | throw => rfl
  | resp ok u =>
    cases ok with
    | false => simp
    | true =>
      dsimp only
      rw [if_neg (by simp)]
      cases hp : (pollLoop env.poll).1 with
      | error e => rfl
      | ok o =>
        cases o with
        | none => rfl
        | some url =>
          cases hd : env.download with
          | throw => rfl
          | resp dok csv =>
            cases dok with
            | false => simp
            | true =>
              exfalso
              rcases h with h1 | h2 | h3 | h4
              · rw [hs] at h1; simp [fetchFails] at h1
              · rw [hp] at h2; simp at h2
              · rw [hp] at h3; simp at h3
              · rw [hd] at h4; simp [fetchFails] at h4

/-- An environment whose submission responds with a non-success
status. -/
def envSubmitFail : TraceEnv :=
  { submit := Fetch.resp false ()
    poll := fun _ => Fetch.throw
    download := Fetch.throw }

theorem c7_witness :
    skipTrace envSubmitFail [({} : Listing)] = [({} : Listing)] :=
  c7_soft_failure envSubmitFail [{}]
    (Or.inl (by simp [envSubmitFail, fetchFails]))

/-! ## C8: the attached owner fields -/

/-- A listing matched by the first-token address heuristic. -/
def lOak : Listing := { address := "100 Oak St" }

/-- A contact row carrying an explicit combined owner name but empty
first/last name fields. -/
def rowJane : List (String × String) :=
  [("address", "100 Oak St"), ("owner_name", "Jane Doe"),
   ("first_name", ""), ("last_name", ""),
   ("mobile_1", ""), ("landline_1", "555-0101"), ("phone_1", "555-0102")]

/-- C8 (code bug): the conditional on src/index.js:417 parses as
`(match.owner_name || match.first_name) ? template : ""`, so a contact
whose `owner_name` is "Jane Doe" (with empty first/last names) gets
`ownerName = ""` — the explicit combined name field is never used as
the value, contradicting the documented preference.  The phone priority
(mobile, then landline, then generic) does behave as claimed. -/
theorem c8_owner_name_bug :
    getField rowJane "owner_name" = "Jane Doe" ∧
      (enrichOne [rowJane] lOak).ownerName = some "" ∧
      (enrichOne [rowJane] lOak).ownerPhone = some "555-0101" ∧
      (enrichOne [rowJane] lOak).ownerEmail = some "" ∧
      (enrichOne [rowJane] lOak).ownerMailingAddress = some "" ∧
      enrichOne [] lOak = lOak := by
  refine ⟨by decide, by decide, by decide, by decide, by decide, rfl⟩

/-! ## C10: enrichment only ever adds owner fields -/

theorem getD_map_of_lt {α β : Type} (f : α → β) (l : List α) (i : ℕ)
    (h : i < l.length) (d : α) (d' : β) :
    (l.map f).getD i d' = f (l.getD i d) := by
  induction l generalizing i with
  | nil => exact absurd h (by simp)
  | cons a t ih =>
    cases i with
    | zero => rfl
    | succ j => exact ih j (by simpa using h)

theorem enrichOne_frame (rows : List (List (String × String)))
    (l : Listing) :
    enrichOne rows l =
      { l with
        ownerName := (enrichOne rows l).ownerName
        ownerPhone := (enrichOne rows l).ownerPhone
        ownerEmail := (enrichOne rows l).ownerEmail
        ownerMailingAddress := (enrichOne rows l).ownerMailingAddress } := by
  unfold enrichOne
  cases rows.find? (fun r => matchAddr l r) <;> rfl

theorem enrichOne_no_match (rows : List (List (String × String)))
    (l : Listing) (h : rows.find? (fun r => matchAddr l r) = none) :
    enrichOne rows l = l := by
  unfold enrichOne
  rw [h]

theorem skipTrace_shape (env : TraceEnv) (listings : List Listing) :
    skipTrace env listings = listings ∨
      ∃ rows, skipTrace env listings = matchBack listings rows := by
  unfold skipTrace
  cases env.submit with
  | throw => exact Or.inl rfl
  | resp ok u =>
    cases ok with
    | false => exact Or.inl (by simp)
    | true =>
      dsimp only
      rw [if_neg (by simp)]
      cases (pollLoop env.poll).1 with
      | error e => exact Or.inl rfl
      | ok o =>
        cases o with
        | none => exact Or.inl rfl
        | some url =>
          cases env.download with
          | throw => exact Or.inl rfl
          | resp dok csv =>
            cases dok with
            | false => exact Or.inl (by simp)
            | true =>
              exact Or.inr ⟨parseTracerfyResults csv, by simp⟩

/-- C10: skip-trace enrichment preserves every pre-existing field — the
output at each index agrees with the input on address, city, zip,
price, urgencyScore, and (by the record-update equation) every
non-owner field — and a listing without a match is returned
identically. -/
theorem c10_enrichment_frame (env : TraceEnv) (listings : List Listing)
    (i : ℕ) (hi : i < listings.length) :
    (skipTrace env listings).length = listings.length ∧
      ((skipTrace env listings).getD i {}).address
        = (listings.getD i {}).address ∧
      ((skipTrace env listings).getD i {}).city
        = (listings.getD i {}).city ∧
      ((skipTrace env listings).getD i {}).zip
        = (listings.getD i {}).zip ∧
      ((skipTrace env listings).getD i {}).price
        = (listings.getD i {}).price ∧
      ((skipTrace env listings).getD i {}).urgencyScore
        = (listings.getD i {}).urgencyScore ∧
      (skipTrace env listings).getD i {}
        = { listings.getD i {} with
            ownerName := ((skipTrace env listings).getD i {}).ownerName
            ownerPhone := ((skipTrace env listings).getD i {}).ownerPhone
            ownerEmail := ((skipTrace env listings).getD i {}).ownerEmail
            ownerMailingAddress :=
              ((skipTrace env listings).getD i {}).ownerMailingAddress } ∧
      (∀ (l : Listing) (rows : List (List (String × String))),
        rows.find? (fun r => matchAddr l r) = none →
          enrichOne rows l = l) := by
  rcases skipTrace_shape env listings with hsp | ⟨rows, hsp⟩
  · rw [hsp]
    exact ⟨rfl, rfl, rfl, rfl, rfl, rfl, rfl, fun l rows => enrichOne_no_match rows l⟩
  · rw [hsp]
    unfold matchBack
    have hm := getD_map_of_lt (enrichOne rows) listings i hi {} {}
    rw [hm]
    refine ⟨List.length_map _ _, ?_, ?_, ?_, ?_, ?_, ?_, fun l rows => enrichOne_no_match rows l⟩
    · unfold enrichOne
      cases rows.find? (fun r => matchAddr (listings.getD i {}) r) <;> rfl
    · unfold enrichOne
      cases rows.find? (fun r => matchAddr (listings.getD i {}) r) <;> rfl
    · unfold enrichOne
      cases rows.find? (fun r => matchAddr (listings.getD i {}) r) <;> rfl
    · unfold enrichOne
      cases rows.find? (fun r => matchAddr (listings.getD i {}) r) <;> rfl
    · unfold enrichOne
      cases rows.find? (fun r => matchAddr (listings.getD i {}) r) <;> rfl
    · exact enrichOne_frame rows (listings.getD i {})

/-- An environment with no usable skip-trace service. -/
def envIdle : TraceEnv :=
  { submit := Fetch.throw
    poll := fun _ => Fetch.throw
    download := Fetch.throw }

theorem c10_witness :
    (skipTrace envIdle [lOak]).length = [lOak].length ∧
      ((skipTrace envIdle [lOak]).getD 0 {}).address
        = ([lOak].getD 0 {}).address :=
  ⟨(c10_enrichment_frame envIdle [lOak] 0 (by decide)).1,
   (c10_enrichment_frame envIdle [lOak] 0 (by decide)).2.1⟩

end ExpiredListings
